import Mathlib

set_option maxRecDepth 8000

/-!
Verification development for the RegulAI agent core.

This file gives a shallow embedding of the agent orchestration loop of the
RegulAI repository and proves properties of it:

* `src/regulai/tools.py` — the MCP tool invoker (`MCPClient.call_tool`,
  `MCPClient._parse_mcp_response`, `_handle_error_response`), the pydantic
  argument schemas (`SearchParams`, `ArticleParams`, `BrowseCodeParams`) and
  the three decorated tools;
* `src/regulai/config.py` — the relevant fields of `RegulAIConfig`;
* `src/regulai/graph.py` — `should_continue`, `call_tools`;
* `src/regulai/agent.py` — the StateGraph wiring of `create_agent`;
* `src/agent/main.py` — the functional-API ReAct loop `agent` with its
  `call_model` / `call_tool` tasks and `entrypoint.final` persistence.

Network I/O (HTTP requests to the MCP server) and the hosted language model
are the environment: they are modelled as oracle functions passed in as
arguments.  Python exceptions are modelled with `Except String`.
-/

/- ======================================================================
   JSON values (the payloads exchanged with the MCP server).
   Mutual inductives are used so that recursion over nested arrays and
   objects is structural.
   ====================================================================== -/

mutual

inductive Json where
  | null
  | bool (b : Bool)
  | num (n : Int)
  | str (s : String)
  | arr (xs : JsonArr)
  | obj (fs : JsonObj)

inductive JsonArr where
  | nil
  | cons (head : Json) (tail : JsonArr)

inductive JsonObj where
  | nil
  | cons (key : String) (val : Json) (rest : JsonObj)

end

/-- Lookup of a key in a JSON object (Python `d["k"]` / `"k" in d`). -/
def JsonObj.find : JsonObj → String → Option Json
  | .nil, _ => none
  | .cons k v r, key => if k = key then some v else JsonObj.find r key

/- Python `str()` / `repr()` of a parsed-JSON value, as used by the
   f-strings and `str(...)` calls in `tools.py`.  `pyRepr` is the nested
   (quoted) form, `pyStr` the top-level form (a `str` prints bare). -/

mutual

def pyRepr : Json → String
  | .null => "None"
  | .bool true => "True"
  | .bool false => "False"
  | .num n => toString n
  | .str s => "\x27" ++ s ++ "\x27"
  | .arr xs => "[" ++ pyReprArr xs ++ "]"
  | .obj fs => "\x7b" ++ pyReprObj fs ++ "\x7d"

def pyReprArr : JsonArr → String
  | .nil => ""
  | .cons x t => pyRepr x ++ pyReprArrRest t

def pyReprArrRest : JsonArr → String
  | .nil => ""
  | .cons x t => ", " ++ pyRepr x ++ pyReprArrRest t

def pyReprObj : JsonObj → String
  | .nil => ""
  | .cons k v t => "\x27" ++ k ++ "\x27: " ++ pyRepr v ++ pyReprObjRest t

def pyReprObjRest : JsonObj → String
  | .nil => ""
  | .cons k v t => ", \x27" ++ k ++ "\x27: " ++ pyRepr v ++ pyReprObjRest t

end

def pyStr : Json → String
  | .str s => s
  | .null => pyRepr .null
  | .bool b => pyRepr (.bool b)
  | .num n => pyRepr (.num n)
  | .arr xs => pyRepr (.arr xs)
  | .obj fs => pyRepr (.obj fs)

/- ======================================================================
   MCPClient._parse_mcp_response  (src/regulai/tools.py, lines 116-146)
   ====================================================================== -/

/-- The inner part of `_parse_mcp_response` operating on `result["result"]`
(the variable `content` in the source).  Branches follow the source:
`isinstance(content, dict) and "content" in content`, then
`isinstance(content_data, list) and len(content_data) > 0`, then
`isinstance(first_item, dict) and "text" in first_item`.
The source returns `first_item["text"]` unwrapped; for string values (the
declared contract, the function is annotated `-> str`) this is the text
itself, which `pyStr` renders faithfully. -/
def parse_result : Json → String
  | .obj cfs =>
    match cfs.find "content" with
    | some content_data =>
      match content_data with
      | .arr (.cons first _) =>
        match first with
        | .obj ffs =>
          match ffs.find "text" with
          | some t => pyStr t
          | none => pyStr (.obj ffs)
        | other => pyStr other
      | other => pyStr other
    | none => pyStr (.obj cfs)
  | other => pyStr other

/-- Embeds `MCPClient._parse_mcp_response(result)`: the envelope dispatch
`if "result" in result: ... else: f"Réponse inattendue du serveur MCP: ..."`. -/
def parse_mcp_response (envelope : Json) : String :=
  match envelope with
  | .obj fs =>
    match fs.find "result" with
    | some content => parse_result content
    | none => "Réponse inattendue du serveur MCP: " ++ pyStr (.obj fs)
  | other => "Réponse inattendue du serveur MCP: " ++ pyStr other

/-- Modelled from the spec: the extraction policy of §4.1, stated over the
result payload — "(1) if the envelope has a `content` list with a first
element exposing `text`, return that text; (2) else if `content` is present,
stringify it; (3) else stringify the whole result payload."  This definition
follows the spec's words (for comparison against `parse_result`, which is
translated from the code). -/
def spec_extraction_policy (result : Json) : String :=
  match result with
  | .obj fs =>
    match fs.find "content" with
    | some c =>
      match c with
      | .arr (.cons (.obj ffs) _) =>
        match ffs.find "text" with
        | some t => pyStr t
        | none => pyStr c
      | _ => pyStr c
    | none => pyStr (.obj fs)
  | other => pyStr other

/-- The amended extraction policy, following the code: (1) a `content` list
whose first element exposes `text` yields that text; (1b) a non-empty
`content` list whose first element does not expose `text` yields the
stringified FIRST ELEMENT (not the stringified list); (2) a `content` field
that is not a non-empty list is stringified; (3) otherwise the whole result
payload is stringified. -/
def amended_extraction_policy (result : Json) : String :=
  match result with
  | .obj fs =>
    match fs.find "content" with
    | some c =>
      match c with
      | .arr (.cons first _) =>
        match first with
        | .obj ffs =>
          match ffs.find "text" with
          | some t => pyStr t
          | none => pyStr first
        | _ => pyStr first
      | _ => pyStr c
    | none => pyStr (.obj fs)
  | other => pyStr other

/- ======================================================================
   RegulAIConfig (src/regulai/config.py) and MCPClient
   (src/regulai/tools.py, lines 53-114)
   ====================================================================== -/

/-- The configuration fields relevant to the agent core, with their
source defaults (`mcp_server_url`, `mcp_timeout`, `max_iterations`). -/
structure RegulAIConfig where
  mcp_server_url : String := "http://127.0.0.1:8000/mcp/"
  mcp_timeout : Int := 30
  max_iterations : Nat := 20

/-- Embeds `get_config()` with no environment overrides: all defaults. -/
def defaultConfig : RegulAIConfig := {}

structure MCPClient where
  server_url : String
  timeout : Int

/-- Embeds `MCPClient.__init__`: `self.server_url = server_url or config.mcp_server_url`
and `self.timeout = timeout or config.mcp_timeout` — Python `or` falls back on
falsy values (`None`, `0`, `""`). -/
def MCPClient.init (server_url : Option String) (timeout : Option Int)
    (config : RegulAIConfig) : MCPClient :=
  { server_url :=
      match server_url with
      | some s => if s = "" then config.mcp_server_url else s
      | none => config.mcp_server_url,
    timeout :=
      match timeout with
      | some t => if t = 0 then config.mcp_timeout else t
      | none => config.mcp_timeout }

/-- Embeds `get_mcp_client()`: the module-global `MCPClient()` built from config. -/
def defaultClient : MCPClient := MCPClient.init none none defaultConfig

/-- An HTTP response from the MCP server: status code, the outcome of
`response.json()` (`.error` models the decode exception), and
`response.text`. -/
structure HttpResponse where
  status : Nat
  jsonBody : Except String Json
  text : String

/-- The network is an oracle: given the timeout carried by the request and
the posted JSON payload, it yields either a connection failure
(`httpx.RequestError`, as its message) or an `HttpResponse`. -/
def HttpOracle : Type := Int → Json → Except String HttpResponse

/-- The request body built by `MCPClient.call_tool`:
`{"method": "tools/call", "params": {"name": ..., "arguments": ...}}`. -/
def mcp_payload (tool_name : String) (tool_args : Json) : Json :=
  Json.obj (.cons "method" (.str "tools/call")
    (.cons "params" (Json.obj (.cons "name" (.str tool_name)
      (.cons "arguments" tool_args .nil))) .nil))

/-- Embeds `MCPClient._handle_error_response`: the f-string message `Erreur HTTP <status>` extended
with the JSON error body if it parses, else with `response.text`. -/
def handle_error_response (r : HttpResponse) : String :=
  match r.jsonBody with
  | .ok detail => "Erreur HTTP " ++ toString r.status ++ ": " ++ pyStr detail
  | .error _ => "Erreur HTTP " ++ toString r.status ++ ": " ++ r.text

/-- Embeds `MCPClient.call_tool` (src/regulai/tools.py, lines 73-114).  The POST to
`{server_url}/invoke` carries `self.timeout` and the payload; a 200 response
is parsed (a JSON-decode failure is caught by the generic `except` clause),
a non-200 response goes to `_handle_error_response`, and a connection error
(`httpx.RequestError`) yields the formatted connection-error string.  Every
branch returns a string: the function never raises. -/
def MCPClient.call_tool (client : MCPClient) (http : HttpOracle)
    (tool_name : String) (tool_args : Json) : String :=
  match http client.timeout (mcp_payload tool_name tool_args) with
  | .error e =>
    "Erreur de connexion au serveur MCP (" ++ client.server_url ++ "): " ++ e
  | .ok r =>
    if r.status = 200 then
      match r.jsonBody with
      | .ok j => parse_mcp_response j
      | .error e => "Erreur lors de l\x27appel de l\x27outil " ++ tool_name ++ ": " ++ e
    else
      handle_error_response r

/- ======================================================================
   Messages and tool calls (LangChain message model as used by the repo)
   ====================================================================== -/

/-- A tool request emitted by the model: `tool_call["name"]`,
`tool_call["args"]`, `tool_call["id"]`. -/
structure ToolCall where
  name : String
  args : Json
  id : String

/-- The message union threaded through the loop: `HumanMessage`,
`AIMessage` (with its `tool_calls` list) and `ToolMessage` (with its
`tool_call_id`). -/
inductive Message where
  | user (content : String)
  | assistant (content : String) (tool_calls : List ToolCall)
  | toolResult (content : String) (tool_call_id : String)

/-- The tool requests carried by a message: only assistant messages carry
any. -/
def Message.toolRequests : Message → List ToolCall
  | .assistant _ tcs => tcs
  | _ => []

/-- An `AIMessage` as returned by the model caller. -/
structure AIMessage where
  content : String
  tool_calls : List ToolCall

def AIMessage.toMessage (a : AIMessage) : Message :=
  .assistant a.content a.tool_calls

/-- The `requestId` of a tool-result message, if the message is one. -/
def toolResultId : Message → Option String
  | .toolResult _ id => some id
  | _ => none

/- ======================================================================
   should_continue and the StateGraph wiring
   (src/regulai/graph.py lines 158-176, src/regulai/agent.py lines 37-65)
   ====================================================================== -/

/-- Embeds `should_continue(state)`: looks at the last message of the state; an
`AIMessage` with a non-empty `tool_calls` routes to `"tools"`, everything
else to `"__end__"`.  (The source indexes `[-1]` and so presumes a
non-empty list; the `none` branch here is junk for the empty state, and the
theorems about this function carry a non-emptiness hypothesis.) -/
def should_continue (msgs : List Message) : String :=
  match msgs.getLast? with
  | some (.assistant _ tcs) => if tcs.isEmpty then "__end__" else "tools"
  | _ => "__end__"

/-- The edges wired by `create_agent`: conditional edges out of `"agent"`
via `should_continue` (`"tools" → tools`, `"__end__" → END`), and the fixed
edge `add_edge("tools", "agent")`. -/
def regulai_graph_next (node : String) (msgs : List Message) : String :=
  if node = "agent" then should_continue msgs
  else if node = "tools" then "agent"
  else "agent"

/- ======================================================================
   Tool schemas and the tool pipeline
   (src/regulai/tools.py lines 20-47 and 218-293)
   ====================================================================== -/

/-- The names of `get_available_tools()` = keys of `tools_by_name` /
`get_tools_dict()`. -/
def available_tool_names : List String :=
  ["search_legifrance", "get_article", "browse_code"]

/-- Validation of `ArticleParams` (pydantic): `article_id` is a required
`str` field with no default.  A missing or non-string value fails
validation before the tool body runs; `.ok` carries the validated value. -/
def validate_article_params (args : JsonObj) : Except String String :=
  match args.find "article_id" with
  | some (.str s) => .ok s
  | some _ => .error "article_id: Input should be a valid string"
  | none => "article_id: Field required" |> .error

/-- Validation of `SearchParams`: required `str` `query`, `int`
`max_results` defaulting to 10. -/
def validate_search_params (args : JsonObj) : Except String (String × Int) :=
  match args.find "query" with
  | some (.str q) =>
    match args.find "max_results" with
    | some (.num m) => .ok (q, m)
    | some _ => .error "max_results: Input should be a valid integer"
    | none => .ok (q, 10)
  | some _ => .error "query: Input should be a valid string"
  | none => "query: Field required" |> .error

/-- Validation of `BrowseCodeParams`: required `str` `code_name`, optional
`str` `section` defaulting to `None`. -/
def validate_browse_params (args : JsonObj) : Except String (String × Option String) :=
  match args.find "code_name" with
  | some (.str c) =>
    match args.find "section" with
    | some (.str s) => .ok (c, some s)
    | some .null => .ok (c, none)
    | some _ => .error "section: Input should be a valid string"
    | none => .ok (c, none)
  | some _ => .error "code_name: Input should be a valid string"
  | none => "code_name: Field required" |> .error

/-- The `get_article` tool: schema validation (performed by the `@tool`
decorator before the body runs; a failure raises, modelled as `.error`),
then `client.call_tool("get_article", {"article_id": article_id})`. -/
def get_article_tool (http : HttpOracle) (args : JsonObj) : Except String String :=
  match validate_article_params args with
  | .error e => .error e
  | .ok aid =>
    .ok (defaultClient.call_tool http "get_article"
      (Json.obj (.cons "article_id" (.str aid) .nil)))

/-- The `search_legifrance` tool. -/
def search_legifrance_tool (http : HttpOracle) (args : JsonObj) : Except String String :=
  match validate_search_params args with
  | .error e => .error e
  | .ok (q, m) =>
    .ok (defaultClient.call_tool http "search_legifrance"
      (Json.obj (.cons "query" (.str q) (.cons "max_results" (.num m) .nil))))

/-- The `browse_code` tool. -/
def browse_code_tool (http : HttpOracle) (args : JsonObj) : Except String String :=
  match validate_browse_params args with
  | .error e => .error e
  | .ok (c, s) =>
    .ok (defaultClient.call_tool http "browse_code"
      (Json.obj (.cons "code_name" (.str c)
        (.cons "section" (match s with | some t => .str t | none => .null) .nil))))

/-- Embeds `tool.invoke` on the request arguments, dispatched by tool name (the lookup in
`tools_dict` / `tools_by_name`); the final branch is unreachable behind the
name guards of the callers. -/
def dispatch_tool (http : HttpOracle) (tc : ToolCall) : Except String String :=
  let args : JsonObj := match tc.args with | .obj fs => fs | _ => .nil
  if tc.name = "search_legifrance" then search_legifrance_tool http args
  else if tc.name = "get_article" then get_article_tool http args
  else if tc.name = "browse_code" then browse_code_tool http args
  else .error ("KeyError: \x27" ++ tc.name ++ "\x27")

/- ======================================================================
   call_tools (src/regulai/graph.py, lines 99-151)
   ====================================================================== -/

/-- The body of the `for tool_call in last_message.tool_calls` loop for one
tool call: known tools are invoked under `try/except` (a raised exception —
e.g. a pydantic validation error — becomes an error `ToolMessage`), unknown
tools yield the "non disponible" `ToolMessage`.  All branches carry
`tool_call_id=tool_call["id"]`. -/
def execute_tool_call (invoke : ToolCall → Except String String)
    (tc : ToolCall) : Message :=
  if available_tool_names.contains tc.name then
    match invoke tc with
    | .ok r => .toolResult r tc.id
    | .error e =>
      .toolResult ("Erreur lors de l\x27exécution de " ++ tc.name ++ ": " ++ e) tc.id
  else
    .toolResult ("Outil \x27" ++ tc.name ++ "\x27 non disponible") tc.id

/-- Embeds `call_tools(state)`: if the last message is not an `AIMessage` with
tool calls, return no messages; otherwise execute every tool call in order
and return the resulting `ToolMessage`s. -/
def call_tools (invoke : ToolCall → Except String String)
    (msgs : List Message) : List Message :=
  match msgs.getLast? with
  | some (.assistant _ tcs) =>
    if tcs.isEmpty then [] else tcs.map (execute_tool_call invoke)
  | _ => []

/- ======================================================================
   The functional-API ReAct loop (src/agent/main.py, lines 41-91)
   ====================================================================== -/

/-- The `call_tool` task of `src/agent/main.py` (lines 48-53): a missing
name in `tools_by_name` raises `KeyError`, and `tool.invoke` may raise;
this task has no `try/except`, so both propagate (unlike `call_tools` of
graph.py). -/
def call_tool_task (invoke : ToolCall → Except String String)
    (tc : ToolCall) : Except String Message :=
  if available_tool_names.contains tc.name then
    match invoke tc with
    | .ok obs => .ok (.toolResult obs tc.id)
    | .error e => .error e
  else
    .error ("KeyError: \x27" ++ tc.name ++ "\x27")

/-- Embeds the result-collection comprehension over the tool futures: collect every tool
task's result in request order; the first raising task propagates. -/
def tasksResults (invoke : ToolCall → Except String String) :
    List ToolCall → Except String (List Message)
  | [] => .ok []
  | tc :: rest =>
    match call_tool_task invoke tc with
    | .error e => .error e
    | .ok m =>
      match tasksResults invoke rest with
      | .error e => .error e
      | .ok ms => .ok (m :: ms)

/-- The `while True` ReAct loop of `agent` (src/agent/main.py lines 68-91),
from the initial `call_model` on.  The model caller is the oracle `mdl`
(`call_model(messages)`: an `.error` models a raised `ModelCallError`); the
tool invoker is `invoke`.  Termination fuel is an embedding artifact (the
source loop is unbounded); running out of fuel is an `.error`, and every
theorem below supplies enough fuel.  On `DONE` the loop returns the full
history `add_messages(messages, llm_response)` together with the final
answer, mirroring `entrypoint.final(value=llm_response, save=messages)`. -/
def runAgent (mdl : List Message → Except String AIMessage)
    (invoke : ToolCall → Except String String) :
    Nat → List Message → Except String (List Message × AIMessage)
  | 0, _ => .error "GraphRecursionError"
  | fuel + 1, messages =>
    match mdl messages with
    | .error e => .error e
    | .ok llm =>
      if llm.tool_calls.isEmpty then
        .ok (messages ++ [llm.toMessage], llm)
      else
        match tasksResults invoke llm.tool_calls with
        | .error e => .error e
        | .ok results =>
          runAgent mdl invoke fuel (messages ++ llm.toMessage :: results)

/- ======================================================================
   Session persistence (MemorySaver keyed by thread_id; the `previous`
   value and `entrypoint.final(..., save=...)` of src/agent/main.py)
   ====================================================================== -/

/-- The checkpointer's store: session id ↦ saved message history. -/
def Store : Type := List (String × List Message)

/-- Reads `previous` for a session id: the last saved history, or nothing for a
fresh session. -/
def sessionHistory (store : Store) (sid : String) : List Message :=
  match List.lookup sid store with
  | some h => h
  | none => []

/-- Saving under a session id (`entrypoint.final(..., save=messages)`). -/
def storePut (store : Store) (sid : String) (h : List Message) : Store :=
  (sid, h) :: store

/-- The history handed to the loop's first model call:
`if previous is not None: messages = add_messages(previous, messages)` —
prior persisted history concatenated with the new input messages. -/
def turnInput (store : Store) (sid : String) (newMsgs : List Message) :
    List Message :=
  sessionHistory store sid ++ newMsgs

/-- One full turn against the session store: assemble the input, run the
loop, and on success persist the complete history under the session id and
return the final answer.  A loop failure propagates: no final answer is
produced and no `storePut` happens. -/
def runTurn (mdl : List Message → Except String AIMessage)
    (invoke : ToolCall → Except String String) (fuel : Nat)
    (store : Store) (sid : String) (newMsgs : List Message) :
    Except String (Store × AIMessage) :=
  match runAgent mdl invoke fuel (turnInput store sid newMsgs) with
  | .error e => .error e
  | .ok (history, final) => .ok (storePut store sid history, final)

/- ======================================================================
   Iteration counting (for the maximum-iteration claim)
   ====================================================================== -/

/-- Whether a message is an assistant message requesting tools — each such
message in a turn's history marks one `AWAITING_MODEL → AWAITING_TOOLS`
transition. -/
def isToolCallingAssistant : Message → Bool
  | .assistant _ tcs => !tcs.isEmpty
  | _ => false

/-- The number of model⇄tools cycles recorded in a history. -/
def countToolCycles (h : List Message) : Nat :=
  (h.filter isToolCallingAssistant).length

/-- A sample well-formed tool request for `search_legifrance`. -/
def demo_tool_call : ToolCall :=
  ⟨"search_legifrance",
    Json.obj (.cons "query" (.str "congés payés")
      (.cons "max_results" (.num 3) .nil)), "t"⟩

/-- An adversarial model oracle that keeps requesting one
`search_legifrance` call until `n` tool cycles have accumulated, then
answers without tool calls. -/
def unboundedModel (n : Nat) : List Message → Except String AIMessage :=
  fun msgs =>
    if countToolCycles msgs < n then .ok ⟨"", [demo_tool_call]⟩
    else .ok ⟨"done", []⟩

/-- A tool oracle whose every call succeeds with a fixed observation. -/
def okInvoke : ToolCall → Except String String :=
  fun _ => .ok "résultat"

/-- Whether a message is an `AIMessage` (`isinstance(m, AIMessage)`). -/
def Message.isAssistant : Message → Bool
  | .assistant _ _ => true
  | _ => false

/-- The unbounded execution used against the maximum-iteration claim:
21 requested tool cycles against the default configuration. -/
def c5_run : Except String (List Message × AIMessage) :=
  runAgent (unboundedModel 21) okInvoke 22 [Message.user "q"]

def c5_run_ok : Bool :=
  match c5_run with
  | .ok _ => true
  | .error _ => false

def c5_run_cycles : Nat :=
  match c5_run with
  | .ok (h, _) => countToolCycles h
  | .error _ => 0

/- Concrete environment oracles used by the witnesses. -/

/-- An HTTP oracle answering 500 with a non-JSON body. -/
def http500 : HttpOracle :=
  fun _ _ => .ok ⟨500, .error "Expecting value", "Internal Server Error"⟩

/-- An HTTP oracle modelling a connection failure. -/
def httpDown : HttpOracle :=
  fun _ _ => .error "Connection refused"

/-- A model oracle that requests one tool call first and then raises
(on its second call, once tool results are in the history). -/
def failingSecondCallModel : List Message → Except String AIMessage :=
  fun msgs =>
    if msgs.length ≤ 1 then .ok ⟨"", [demo_tool_call]⟩
    else .error "RateLimitError"

/-- A model oracle that answers directly with no tool calls. -/
def plainModel : List Message → Except String AIMessage :=
  fun _ => .ok ⟨"bonjour", []⟩

/- ======================================================================
   Helper lemmas
   ====================================================================== -/

/-- The last element of a history extended by one message. -/
theorem getLast_concat_eq {α : Type} (l : List α) (x : α) :
    (l ++ [x]).getLast? = some x := by
  induction l with
  | nil => rfl
  | cons a t ih =>
    rw [List.cons_append, List.getLast?_cons, ih]
    cases t <;> simp

/-- One loop step when the model raises. -/
theorem runAgent_model_error {mdl : List Message → Except String AIMessage}
    {invoke : ToolCall → Except String String} {fuel : Nat}
    {msgs : List Message} {e : String} (h : mdl msgs = .error e) :
    runAgent mdl invoke (fuel + 1) msgs = .error e := by
  simp [runAgent, h]

/-- One loop step when the model answers without tool calls: the loop
terminates with the final answer appended to the history. -/
theorem runAgent_done {mdl : List Message → Except String AIMessage}
    {invoke : ToolCall → Except String String} {fuel : Nat}
    {msgs : List Message} {llm : AIMessage}
    (h : mdl msgs = .ok llm) (h2 : llm.tool_calls = []) :
    runAgent mdl invoke (fuel + 1) msgs = .ok (msgs ++ [llm.toMessage], llm) := by
  simp [runAgent, h, h2]

/-- One loop step when the model requests tools and every tool task
returns: the loop re-enters with the model answer and the tool results
appended. -/
theorem runAgent_tools {mdl : List Message → Except String AIMessage}
    {invoke : ToolCall → Except String String} {fuel : Nat}
    {msgs : List Message} {llm : AIMessage} {results : List Message}
    (h : mdl msgs = .ok llm) (h2 : llm.tool_calls ≠ [])
    (h3 : tasksResults invoke llm.tool_calls = .ok results) :
    runAgent mdl invoke (fuel + 1) msgs =
      runAgent mdl invoke fuel (msgs ++ llm.toMessage :: results) := by
  have hne : llm.tool_calls.isEmpty = false := by
    cases hcalls : llm.tool_calls with
    | nil => exact absurd hcalls h2
    | cons a t => rfl
  simp [runAgent, h, hne, h3]

/-- The loop only ever appends to the history it is given. -/
theorem runAgent_append {mdl : List Message → Except String AIMessage}
    {invoke : ToolCall → Except String String} :
    ∀ {fuel : Nat} {msgs hist : List Message} {a : AIMessage},
      runAgent mdl invoke fuel msgs = .ok (hist, a) →
      ∃ t, hist = msgs ++ t := by
  intro fuel
  induction fuel with
  | zero => intro msgs hist a hr; simp [runAgent] at hr
  | succ n ih =>
    intro msgs hist a hr
    simp only [runAgent] at hr
    split at hr
    · exact absurd hr (by simp)
    · split at hr
      · obtain ⟨h1, h2⟩ := by simpa using hr
        exact ⟨_, h1.symm⟩
      · split at hr
        · exact absurd hr (by simp)
        · obtain ⟨t, ht⟩ := ih hr
          exact ⟨_, by rw [ht, List.append_assoc]⟩

/-- When the loop terminates normally, the returned answer has no tool
calls and is the last message of the returned history. -/
theorem runAgent_final {mdl : List Message → Except String AIMessage}
    {invoke : ToolCall → Except String String} :
    ∀ {fuel : Nat} {msgs hist : List Message} {a : AIMessage},
      runAgent mdl invoke fuel msgs = .ok (hist, a) →
      a.tool_calls = [] ∧ hist.getLast? = some a.toMessage := by
  intro fuel
  induction fuel with
  | zero => intro msgs hist a hr; simp [runAgent] at hr
  | succ n ih =>
    intro msgs hist a hr
    simp only [runAgent] at hr
    split at hr
    · exact absurd hr (by simp)
    · rename_i llm hmdl
      split at hr
      · rename_i hempty
        obtain ⟨h1, h2⟩ := by simpa using hr
        subst h2
        refine ⟨by simpa using hempty, ?_⟩
        rw [← h1, getLast_concat_eq]
      · split at hr
        · exact absurd hr (by simp)
        · exact ih hr

/-- Every branch of the tools-node body yields a `ToolMessage` carrying the
originating request id. -/
theorem execute_tool_call_id (invoke : ToolCall → Except String String)
    (tc : ToolCall) :
    toolResultId (execute_tool_call invoke tc) = some tc.id := by
  unfold execute_tool_call
  split
  · split <;> rfl
  · rfl

/-- When a known tool raises, the tools-node body catches the exception and
turns it into the error observation message for the originating request. -/
theorem execute_tool_call_error_obs (invoke : ToolCall → Except String String)
    (tc : ToolCall) (e : String)
    (hname : available_tool_names.contains tc.name = true)
    (herr : invoke tc = .error e) :
    execute_tool_call invoke tc =
      .toolResult ("Erreur lors de l\x27exécution de " ++ tc.name ++ ": " ++ e)
        tc.id := by
  have hmem : tc.name ∈ available_tool_names := by simpa using hname
  simp [execute_tool_call, hmem, herr]

/-- Reading a session back right after saving it. -/
theorem sessionHistory_put (store : Store) (sid : String) (h : List Message) :
    sessionHistory (storePut store sid h) sid = h := by
  simp [sessionHistory, storePut, List.lookup]

/- ======================================================================
   Claim theorems
   ====================================================================== -/

/-- Claim C1: for every agent state whose message list is non-empty,
`should_continue` returns "tools" exactly when the last message is an
assistant message carrying one or more tool requests, and "__end__" exactly
when the last message carries zero tool requests; and when the loop ends,
the final answer returned is that last assistant message (it is the last
message of the history and carries no tool requests). -/
theorem c1_routing :
    (∀ (msgs : List Message) (m : Message), msgs.getLast? = some m →
      ((should_continue msgs = "tools" ↔
          m.isAssistant = true ∧ 1 ≤ m.toolRequests.length) ∧
       (should_continue msgs = "__end__" ↔ m.toolRequests = []))) ∧
    (∀ (mdl : List Message → Except String AIMessage)
       (invoke : ToolCall → Except String String) (fuel : Nat)
       (msgs hist : List Message) (a : AIMessage),
      runAgent mdl invoke fuel msgs = .ok (hist, a) →
      a.tool_calls = [] ∧ hist.getLast? = some a.toMessage) := by
  constructor
  · intro msgs m hlast
    cases m with
    | user t =>
      constructor <;>
        simp [should_continue, hlast, Message.toolRequests, Message.isAssistant]
    | assistant t tcs =>
      cases tcs with
      | nil =>
        constructor <;>
          simp [should_continue, hlast, Message.toolRequests, Message.isAssistant]
      | cons tc r =>
        constructor <;>
          simp [should_continue, hlast, Message.toolRequests, Message.isAssistant]
    | toolResult c i =>
      constructor <;>
        simp [should_continue, hlast, Message.toolRequests, Message.isAssistant]
  · intro mdl invoke fuel msgs hist a hr
    exact runAgent_final hr

/-- Witness for C1 at concrete states: a last assistant message with one
tool request routes to "tools", a last assistant message without tool
requests routes to "__end__", and a terminating one-step run returns its
last assistant message as the final answer. -/
theorem c1_routing_witness :
    should_continue [Message.user "bonjour",
      Message.assistant "" [demo_tool_call]] = "tools" ∧
    should_continue [Message.user "bonjour",
      Message.assistant "réponse" []] = "__end__" ∧
    ((⟨"bonjour", []⟩ : AIMessage).tool_calls = [] ∧
      [Message.user "q", Message.assistant "bonjour" []].getLast? =
        some (AIMessage.toMessage ⟨"bonjour", []⟩)) := by
  refine ⟨?_, ?_, ?_⟩
  · exact (c1_routing.1 [Message.user "bonjour", Message.assistant "" [demo_tool_call]]
      (Message.assistant "" [demo_tool_call]) rfl).1.mpr (by constructor <;> decide)
  · exact (c1_routing.1 [Message.user "bonjour", Message.assistant "réponse" []]
      (Message.assistant "réponse" []) rfl).2.mpr rfl
  · exact c1_routing.2 plainModel okInvoke 1 [Message.user "q"] _ _ rfl

/-- Claim C2: executing the tools step on a state whose last assistant
message carries tool requests with ids "a" and "b" produces exactly two
tool-result messages, the first carrying requestId "a" and the second
requestId "b", for EVERY tool invoker — the correlation ids do not depend
on the tools' outcomes or completion order. -/
theorem c2_multi_tool_correlation
    (invoke : ToolCall → Except String String)
    (pre : List Message) (text : String) (tcA tcB : ToolCall)
    (ha : tcA.id = "a") (hb : tcB.id = "b") :
    (call_tools invoke (pre ++ [Message.assistant text [tcA, tcB]])).length = 2 ∧
    (call_tools invoke (pre ++ [Message.assistant text [tcA, tcB]])).map toolResultId =
      [some "a", some "b"] := by
  have hct : call_tools invoke (pre ++ [Message.assistant text [tcA, tcB]]) =
      [execute_tool_call invoke tcA, execute_tool_call invoke tcB] := by
    simp [call_tools, getLast_concat_eq]
  rw [hct]
  refine ⟨rfl, ?_⟩
  simp [execute_tool_call_id, ha, hb]

/-- Witness for C2: two concrete requests with ids "a" and "b" (one of them
for an unknown tool, so the two invocations end differently) still yield
exactly the result ids "a" then "b". -/
theorem c2_multi_tool_correlation_witness :
    (call_tools okInvoke [Message.user "q", Message.assistant ""
        [⟨"get_article", Json.obj .nil, "a"⟩, ⟨"inconnu", Json.null, "b"⟩]]).length = 2 ∧
    (call_tools okInvoke [Message.user "q", Message.assistant ""
        [⟨"get_article", Json.obj .nil, "a"⟩, ⟨"inconnu", Json.null, "b"⟩]]).map toolResultId =
      [some "a", some "b"] :=
  c2_multi_tool_correlation okInvoke [Message.user "q"] ""
    ⟨"get_article", Json.obj .nil, "a"⟩ ⟨"inconnu", Json.null, "b"⟩ rfl rfl

/-- Claim C10: a tool request whose name is not among the available tools
does not make the tools step raise (`call_tools` is a total function whose
unknown-name branch builds a message, not an exception): it yields a
tool-result message reading "Outil '<name>' non disponible" carrying the
originating request id, and the graph edge out of the tools node returns
to the agent node, so the loop continues. -/
theorem c10_unknown_tool
    (invoke : ToolCall → Except String String)
    (pre : List Message) (text : String) (tc : ToolCall)
    (h : available_tool_names.contains tc.name = false) :
    call_tools invoke (pre ++ [Message.assistant text [tc]]) =
      [Message.toolResult ("Outil \x27" ++ tc.name ++ "\x27 non disponible") tc.id] ∧
    (∀ msgs : List Message, regulai_graph_next "tools" msgs = "agent") := by
  have h2 : ¬ tc.name ∈ available_tool_names := by simpa using h
  constructor
  · simp [call_tools, getLast_concat_eq, execute_tool_call, h2]
  · intro msgs; rfl

/-- Witness for C10: the unknown tool name "fetch_article" yields the
"non disponible" observation message with its request id. -/
theorem c10_unknown_tool_witness :
    call_tools okInvoke [Message.user "q",
        Message.assistant "" [⟨"fetch_article", Json.obj .nil, "x1"⟩]] =
      [Message.toolResult "Outil \x27fetch_article\x27 non disponible" "x1"] ∧
    (∀ msgs : List Message, regulai_graph_next "tools" msgs = "agent") := by
  have h := c10_unknown_tool okInvoke [Message.user "q"] ""
    ⟨"fetch_article", Json.obj .nil, "x1"⟩ rfl
  exact ⟨h.1, h.2⟩

/-- The code's extraction coincides with the amended policy on every result
payload. -/
theorem parse_result_eq_amended (c : Json) :
    parse_result c = amended_extraction_policy c := by
  cases c with
  | obj cfs =>
    rcases hfind : cfs.find "content" with _ | cd
    · simp [parse_result, amended_extraction_policy, hfind]
    · cases cd with
      | arr xs =>
        cases xs with
        | nil => simp [parse_result, amended_extraction_policy, hfind]
        | cons first rest =>
          cases first with
          | obj ffs =>
            rcases htext : ffs.find "text" with _ | t <;>
              simp [parse_result, amended_extraction_policy, hfind, htext]
          | null => simp [parse_result, amended_extraction_policy, hfind]
          | bool b => simp [parse_result, amended_extraction_policy, hfind]
          | num n => simp [parse_result, amended_extraction_policy, hfind]
          | str s => simp [parse_result, amended_extraction_policy, hfind]
          | arr ys => simp [parse_result, amended_extraction_policy, hfind]
      | null => simp [parse_result, amended_extraction_policy, hfind]
      | bool b => simp [parse_result, amended_extraction_policy, hfind]
      | num n => simp [parse_result, amended_extraction_policy, hfind]
      | str s => simp [parse_result, amended_extraction_policy, hfind]
      | obj o => simp [parse_result, amended_extraction_policy, hfind]
  | null => rfl
  | bool b => rfl
  | num n => rfl
  | str s => rfl
  | arr xs => rfl

/-- Claim C3 counterexample: on the successful envelope
`{"result": {"content": [42]}}` the parser returns the stringified FIRST
ELEMENT `"42"`, while the claimed policy ("otherwise the stringified
`content` when a `content` field is present") demands the stringified
content list `"[42]"`. -/
theorem c3_extraction_counterexample :
    parse_mcp_response (Json.obj (.cons "result" (Json.obj (.cons "content"
        (Json.arr (.cons (.num 42) .nil)) .nil)) .nil)) = "42" ∧
    spec_extraction_policy (Json.obj (.cons "content"
        (Json.arr (.cons (.num 42) .nil)) .nil)) = "[42]" ∧
    ("42" : String) ≠ "[42]" := by
  refine ⟨rfl, rfl, by decide⟩

/-- Claim C3 amended: for every successful (HTTP 200) envelope carrying a
`result` field, the parser returns (1) the first element's text when the
result holds a `content` list whose first element is an object exposing a
`text` field; (1b) the stringified first element when the `content` list is
non-empty but its first element does not expose `text`; (2) the stringified
`content` when a `content` field is present but is not a non-empty list;
(3) the stringified whole result payload otherwise. -/
theorem c3_extraction_amended (fs : JsonObj) (content : Json)
    (h : fs.find "result" = some content) :
    parse_mcp_response (Json.obj fs) = amended_extraction_policy content := by
  simp [parse_mcp_response, h, parse_result_eq_amended]

/-- Witness for the amended C3 at a concrete MCP-shaped envelope
`{"result": {"content": [{"text": "Article L3141-1 ..."}]}}`. -/
theorem c3_extraction_amended_witness :
    parse_mcp_response (Json.obj (.cons "result" (Json.obj (.cons "content"
        (Json.arr (.cons (Json.obj (.cons "text" (.str "Article L3141-1") .nil))
          .nil)) .nil)) .nil)) =
      amended_extraction_policy (Json.obj (.cons "content"
        (Json.arr (.cons (Json.obj (.cons "text" (.str "Article L3141-1") .nil))
          .nil)) .nil)) :=
  c3_extraction_amended _ _ rfl

/-- Claim C4: a tool invocation failing with a non-200 status or a
connection failure makes `MCPClient.call_tool` return a formatted error
string (the function is total over every oracle outcome: it never raises);
whatever string the invoker returns becomes the content of the
corresponding tool-result message; and the loop proceeds from a completed
tools round to a subsequent model call instead of aborting. -/
theorem c4_tool_failure_nonfatal :
    (∀ (client : MCPClient) (http : HttpOracle) (tn : String) (ta : Json)
        (r : HttpResponse),
      http client.timeout (mcp_payload tn ta) = .ok r → r.status ≠ 200 →
      client.call_tool http tn ta = handle_error_response r ∧
      ∃ rest, handle_error_response r =
        "Erreur HTTP " ++ toString r.status ++ rest) ∧
    (∀ (client : MCPClient) (http : HttpOracle) (tn : String) (ta : Json)
        (e : String),
      http client.timeout (mcp_payload tn ta) = .error e →
      client.call_tool http tn ta =
        "Erreur de connexion au serveur MCP (" ++ client.server_url ++ "): " ++ e) ∧
    (∀ (invoke : ToolCall → Except String String) (tc : ToolCall) (s : String),
      available_tool_names.contains tc.name = true → invoke tc = .ok s →
      execute_tool_call invoke tc = .toolResult s tc.id) ∧
    (∀ (mdl : List Message → Except String AIMessage)
        (invoke : ToolCall → Except String String) (fuel : Nat)
        (msgs : List Message) (llm : AIMessage) (results : List Message),
      mdl msgs = .ok llm → llm.tool_calls ≠ [] →
      tasksResults invoke llm.tool_calls = .ok results →
      runAgent mdl invoke (fuel + 1) msgs =
        runAgent mdl invoke fuel (msgs ++ llm.toMessage :: results)) := by
  refine ⟨?_, ?_, ?_, ?_⟩
  · intro client http tn ta r hhttp hstatus
    constructor
    · simp [MCPClient.call_tool, hhttp, hstatus]
    · unfold handle_error_response
      cases r.jsonBody with
      | ok d => exact ⟨": " ++ pyStr d, by simp [String.append_assoc]⟩
      | error e => exact ⟨": " ++ r.text, by simp [String.append_assoc]⟩
  · intro client http tn ta e hhttp
    simp [MCPClient.call_tool, hhttp]
  · intro invoke tc s hname hinv
    have hmem : tc.name ∈ available_tool_names := by simpa using hname
    simp [execute_tool_call, hmem, hinv]
  · intro mdl invoke fuel msgs llm results h1 h2 h3
    exact runAgent_tools h1 h2 h3

/-- Witness for C4: a 500 response yields the formatted HTTP error string,
a connection failure yields the formatted connection-error string, that
string lands in the tool-result message for request "t", and the loop with
one completed (failing) tool round proceeds to a second model call. -/
theorem c4_tool_failure_nonfatal_witness :
    defaultClient.call_tool http500 "get_article"
        (Json.obj (.cons "article_id" (.str "L3141-1") .nil)) =
      handle_error_response ⟨500, .error "Expecting value", "Internal Server Error"⟩ ∧
    defaultClient.call_tool httpDown "get_article"
        (Json.obj (.cons "article_id" (.str "L3141-1") .nil)) =
      "Erreur de connexion au serveur MCP (" ++ defaultClient.server_url ++
        "): " ++ "Connection refused" ∧
    execute_tool_call (fun _ => .ok "Erreur HTTP 500: Internal Server Error")
        demo_tool_call =
      .toolResult "Erreur HTTP 500: Internal Server Error" demo_tool_call.id ∧
    runAgent failingSecondCallModel okInvoke 2 [Message.user "q"] =
      runAgent failingSecondCallModel okInvoke 1
        ([Message.user "q"] ++ AIMessage.toMessage ⟨"", [demo_tool_call]⟩ ::
          [Message.toolResult "résultat" "t"]) := by
  refine ⟨?_, ?_, ?_, ?_⟩
  · exact (c4_tool_failure_nonfatal.1 defaultClient http500 "get_article"
      (Json.obj (.cons "article_id" (.str "L3141-1") .nil))
      ⟨500, .error "Expecting value", "Internal Server Error"⟩ rfl (by decide)).1
  · exact c4_tool_failure_nonfatal.2.1 defaultClient httpDown "get_article"
      (Json.obj (.cons "article_id" (.str "L3141-1") .nil)) "Connection refused" rfl
  · exact c4_tool_failure_nonfatal.2.2.1
      (fun _ => .ok "Erreur HTTP 500: Internal Server Error") demo_tool_call
      "Erreur HTTP 500: Internal Server Error" rfl rfl
  · exact c4_tool_failure_nonfatal.2.2.2 failingSecondCallModel okInvoke 1
      [Message.user "q"] ⟨"", [demo_tool_call]⟩ [Message.toolResult "résultat" "t"]
      rfl (by simp) rfl

/-- Under the adversarial model oracle, whenever `j` more tool cycles are
needed to reach `n`, the loop runs them all and completes normally with
exactly `n` cycles in the final history: nothing in the loop consults
`max_iterations`. -/
theorem unbounded_run (n : Nat) :
    ∀ (j : Nat) (msgs : List Message), countToolCycles msgs + j = n →
      ∃ hist, runAgent (unboundedModel n) okInvoke (j + 1) msgs =
          .ok (hist, ⟨"done", []⟩) ∧ countToolCycles hist = n := by
  intro j
  induction j with
  | zero =>
    intro msgs hc
    have hmdl : unboundedModel n msgs = .ok ⟨"done", []⟩ := by
      unfold unboundedModel
      rw [if_neg (by omega)]
    refine ⟨msgs ++ [AIMessage.toMessage ⟨"done", []⟩], runAgent_done hmdl rfl, ?_⟩
    have hcount : countToolCycles (msgs ++ [AIMessage.toMessage ⟨"done", []⟩]) =
        countToolCycles msgs := by
      simp [countToolCycles, List.filter_append, AIMessage.toMessage,
        isToolCallingAssistant]
    omega
  | succ k ih =>
    intro msgs hc
    have hlt : countToolCycles msgs < n := by omega
    have hmdl : unboundedModel n msgs = .ok ⟨"", [demo_tool_call]⟩ := by
      unfold unboundedModel
      rw [if_pos hlt]
    have hstep := @runAgent_tools (unboundedModel n) okInvoke (k + 1) msgs
      ⟨"", [demo_tool_call]⟩ [Message.toolResult "résultat" "t"]
      hmdl (by simp) rfl
    rw [hstep]
    apply ih
    have hcount : countToolCycles (msgs ++ AIMessage.toMessage ⟨"", [demo_tool_call]⟩ ::
        [Message.toolResult "résultat" "t"]) = countToolCycles msgs + 1 := by
      simp [countToolCycles, List.filter_append, AIMessage.toMessage,
        isToolCallingAssistant, demo_tool_call]
    omega

/-- Claim C5 counterexample: with the default configuration
(`max_iterations = 20`) there is an execution of the loop that performs 21
model⇄tools cycles in one turn and completes normally — the loop never
consults the configured maximum, so the claimed bound does not hold. -/
theorem c5_iteration_bound_counterexample :
    c5_run_ok = true ∧ c5_run_cycles = 21 ∧
    defaultConfig.max_iterations = 20 := by
  obtain ⟨hist, h1, h2⟩ := unbounded_run 21 21 [Message.user "q"] (by decide)
  have hrun : c5_run = .ok (hist, ⟨"done", []⟩) := h1
  refine ⟨?_, ?_, rfl⟩
  · rw [c5_run_ok, hrun]
  · rw [c5_run_cycles, hrun]
    exact h2

/-- Claim C5 amended: the agent loop enforces NO maximum-iteration guard:
`RegulAIConfig.max_iterations` (default 20) exists but is never consulted
by the loop, and for every bound m there is an execution whose single turn
performs m+1 model⇄tools cycles and completes normally. -/
theorem c5_iteration_bound_amended (m : Nat) :
    ∃ hist, runAgent (unboundedModel (m + 1)) okInvoke (m + 2)
        [Message.user "q"] = .ok (hist, ⟨"done", []⟩) ∧
      countToolCycles hist = m + 1 ∧ m < m + 1 := by
  have h0 : countToolCycles [Message.user "q"] = 0 := rfl
  obtain ⟨hist, h1, h2⟩ := unbounded_run (m + 1) (m + 1) [Message.user "q"]
    (by omega)
  exact ⟨hist, h1, h2, by omega⟩

/-- Claim C6: a `ModelCallError` is fatal to the turn: whether the model
raises on its first call or on its second call after a completed tool
round-trip, the failure propagates out of `runTurn` as `.error` — so no
final answer is produced, and since `storePut` only happens in the `.ok`
branch of `runTurn`, the session store is not updated for that turn. -/
theorem c6_model_failure_fatal :
    (∀ (mdl : List Message → Except String AIMessage)
        (invoke : ToolCall → Except String String) (fuel : Nat)
        (store : Store) (sid : String) (newMsgs : List Message) (e : String),
      mdl (turnInput store sid newMsgs) = .error e →
      runTurn mdl invoke (fuel + 1) store sid newMsgs = .error e) ∧
    (∀ (mdl : List Message → Except String AIMessage)
        (invoke : ToolCall → Except String String) (fuel : Nat)
        (store : Store) (sid : String) (newMsgs : List Message)
        (a : AIMessage) (results : List Message) (e : String),
      mdl (turnInput store sid newMsgs) = .ok a →
      a.tool_calls ≠ [] →
      tasksResults invoke a.tool_calls = .ok results →
      mdl (turnInput store sid newMsgs ++ a.toMessage :: results) = .error e →
      runTurn mdl invoke (fuel + 2) store sid newMsgs = .error e) := by
  constructor
  · intro mdl invoke fuel store sid newMsgs e h
    rw [runTurn, runAgent_model_error h]
  · intro mdl invoke fuel store sid newMsgs a results e h1 h2 h3 h4
    rw [runTurn, runAgent_tools h1 h2 h3, runAgent_model_error h4]

/-- Witness for C6: a model that requests one tool call and then raises
"RateLimitError" on its second call makes the whole turn fail with that
error; no store update and no final answer are produced. -/
theorem c6_model_failure_fatal_witness :
    runTurn failingSecondCallModel okInvoke 2 [] "session-1"
      [Message.user "q"] = .error "RateLimitError" :=
  c6_model_failure_fatal.2 failingSecondCallModel okInvoke 0 [] "session-1"
    [Message.user "q"] ⟨"", [demo_tool_call]⟩
    [Message.toolResult "résultat" "t"] "RateLimitError"
    rfl (by simp) rfl rfl

/-- Claim C7: session continuity.  When a turn for a session id completes,
the persisted history T1 for that id is exactly the full transcript the
loop returned (which extends the turn's input, so original order is kept,
and ends with the turn's final answer); and the history assembled for the
next turn on the same session id — the exact list handed to the loop, and
hence to its first model invocation — is T1 followed by the new user
message. -/
theorem c7_session_continuity
    (mdl : List Message → Except String AIMessage)
    (invoke : ToolCall → Except String String) (fuel : Nat)
    (store : Store) (sid : String) (u1 u2 : String)
    (store2 : Store) (a1 : AIMessage)
    (h : runTurn mdl invoke fuel store sid [Message.user u1] = .ok (store2, a1)) :
    ∃ T1,
      sessionHistory store2 sid = T1 ∧
      runAgent mdl invoke fuel (turnInput store sid [Message.user u1]) =
        .ok (T1, a1) ∧
      (∃ tail, T1 = turnInput store sid [Message.user u1] ++ tail) ∧
      T1.getLast? = some a1.toMessage ∧
      turnInput store2 sid [Message.user u2] = T1 ++ [Message.user u2] := by
  rw [runTurn] at h
  cases hr : runAgent mdl invoke fuel (turnInput store sid [Message.user u1]) with
  | error e => rw [hr] at h; cases h
  | ok p =>
    obtain ⟨T1, a⟩ := p
    rw [hr] at h
    obtain ⟨hstore, ha⟩ : storePut store sid T1 = store2 ∧ a = a1 := by
      simpa using h
    subst hstore; subst ha
    refine ⟨T1, sessionHistory_put store sid T1, rfl, runAgent_append hr,
      (runAgent_final hr).2, ?_⟩
    rw [turnInput, sessionHistory_put]

/-- Witness for C7: a first turn "Cherche le Code du travail" answered
directly persists the two-message transcript, and the second turn
"Sois plus précis" on the same session id assembles exactly that
transcript followed by the new user message. -/
theorem c7_session_continuity_witness :
    ∃ T1,
      sessionHistory (storePut [] "s1" [Message.user "Cherche le Code du travail",
        Message.assistant "bonjour" []]) "s1" = T1 ∧
      runAgent plainModel okInvoke 1
          (turnInput [] "s1" [Message.user "Cherche le Code du travail"]) =
        .ok (T1, ⟨"bonjour", []⟩) ∧
      (∃ tail, T1 = turnInput [] "s1" [Message.user "Cherche le Code du travail"] ++ tail) ∧
      T1.getLast? = some (AIMessage.toMessage ⟨"bonjour", []⟩) ∧
      turnInput (storePut [] "s1" [Message.user "Cherche le Code du travail",
          Message.assistant "bonjour" []]) "s1" [Message.user "Sois plus précis"] =
        T1 ++ [Message.user "Sois plus précis"] :=
  c7_session_continuity plainModel okInvoke 1 [] "s1"
    "Cherche le Code du travail" "Sois plus précis"
    (storePut [] "s1" [Message.user "Cherche le Code du travail",
      Message.assistant "bonjour" []]) ⟨"bonjour", []⟩ rfl

/-- Claim C8: `{article_id: "L3141-1"}` passes `ArticleParams` validation;
omitting `article_id` fails validation, the failure is independent of the
HTTP oracle (no network call can influence or be influenced by it), and in
the tools step the failure surfaces as an observation string inside the
tool-result message for the originating request id, not as an exception. -/
theorem c8_argument_validation :
    validate_article_params (.cons "article_id" (.str "L3141-1") .nil) =
      .ok "L3141-1" ∧
    (∀ args : JsonObj, args.find "article_id" = none →
      validate_article_params args = .error "article_id: Field required" ∧
      (∀ http1 http2 : HttpOracle,
        get_article_tool http1 args = get_article_tool http2 args) ∧
      (∀ (http : HttpOracle) (rid : String),
        execute_tool_call (dispatch_tool http) ⟨"get_article", Json.obj args, rid⟩ =
          .toolResult ("Erreur lors de l\x27exécution de get_article: " ++
            "article_id: Field required") rid)) := by
  constructor
  · rfl
  · intro args hmissing
    have hval : validate_article_params args = .error "article_id: Field required" := by
      rw [validate_article_params, hmissing]
    refine ⟨hval, ?_, ?_⟩
    · intro http1 http2
      rw [get_article_tool, get_article_tool, hval]
    · intro http rid
      have hdisp : dispatch_tool http ⟨"get_article", Json.obj args, rid⟩ =
          .error "article_id: Field required" := by
        simp [dispatch_tool, get_article_tool, hval]
      exact execute_tool_call_error_obs (dispatch_tool http)
        ⟨"get_article", Json.obj args, rid⟩ "article_id: Field required" rfl hdisp

/-- Witness for C8: the empty argument object fails validation with
"Field required" and surfaces as the observation of the tool-result
message for request "x7", for a concrete (never-consulted) HTTP oracle. -/
theorem c8_argument_validation_witness :
    validate_article_params (.cons "article_id" (.str "L3141-1") .nil) =
      .ok "L3141-1" ∧
    validate_article_params .nil = .error "article_id: Field required" ∧
    execute_tool_call (dispatch_tool httpDown) ⟨"get_article", Json.obj .nil, "x7"⟩ =
      .toolResult ("Erreur lors de l\x27exécution de get_article: " ++
        "article_id: Field required") "x7" :=
  ⟨c8_argument_validation.1,
   (c8_argument_validation.2 .nil rfl).1,
   (c8_argument_validation.2 .nil rfl).2.2 httpDown "x7"⟩

/-- Claim C9: the tool invoker's timeout defaults to 30 seconds
(`mcp_timeout` default, used by the module-global client) and is
configurable: a non-zero per-client override wins, otherwise the
configuration value applies; and every dispatched tool call depends on the
network only through the request carrying `client.timeout` and the
`tools/call` payload. -/
theorem c9_timeout_configuration :
    defaultConfig.mcp_timeout = 30 ∧
    defaultClient.timeout = 30 ∧
    (∀ c : RegulAIConfig, (MCPClient.init none none c).timeout = c.mcp_timeout) ∧
    (∀ (t : Int) (c : RegulAIConfig), t ≠ 0 →
      (MCPClient.init none (some t) c).timeout = t) ∧
    (∀ (client : MCPClient) (http1 http2 : HttpOracle) (tn : String) (ta : Json),
      http1 client.timeout (mcp_payload tn ta) =
        http2 client.timeout (mcp_payload tn ta) →
      client.call_tool http1 tn ta = client.call_tool http2 tn ta) := by
  refine ⟨rfl, rfl, fun c => rfl, ?_, ?_⟩
  · intro t c ht
    simp [MCPClient.init, ht]
  · intro client http1 http2 tn ta h
    rw [MCPClient.call_tool, MCPClient.call_tool, h]

/-- Witness for C9: a per-client override of 5 seconds takes effect, and
two oracles agreeing at the dispatched timeout and payload give the same
tool-call result. -/
theorem c9_timeout_configuration_witness :
    (MCPClient.init none (some 5) defaultConfig).timeout = 5 ∧
    defaultClient.call_tool httpDown "get_article" Json.null =
      defaultClient.call_tool (fun t p => if t = 30 then httpDown t p
        else .error "autre") "get_article" Json.null :=
  ⟨c9_timeout_configuration.2.2.2.1 5 defaultConfig (by decide),
   c9_timeout_configuration.2.2.2.2 defaultClient httpDown
     (fun t p => if t = 30 then httpDown t p else .error "autre")
     "get_article" Json.null (by rfl)⟩
